import Mathlib

/-!
Verification of the in-memory ledger from `src/accounts.rs`: the `Accounts`
struct with its `deposit`, `withdraw` and `send` operations over a
`HashMap<String, u64>` balance table, together with the transaction records
(`Tx`) returned on success and the `AccountError` values returned on failure.

The `u64` machine integers are modelled as `Nat` with the range made explicit:
`checked_add` succeeds exactly when the true sum is at most `U64MAX`, and
`checked_sub` succeeds exactly when no borrow occurs.  Every state the Rust
code can reach stores only `u64` values; this fact appears as the `WF`
hypothesis on the theorems whose proof needs it (the compensating refund in
`send` relies on the sender's original balance fitting in a `u64`).
-/

namespace Ledger

/-- The largest value of the Rust `u64` type. -/
def U64MAX : Nat := 2 ^ 64 - 1

/-- Account identifiers are strings. -/
abbrev AccountId := String

/-- The `Tx` transaction-record enum: `Deposit { account, amount }` or
`Withdraw { account, amount }`. -/
inductive Tx where
  | Deposit (account : AccountId) (amount : Nat)
  | Withdraw (account : AccountId) (amount : Nat)
deriving DecidableEq, Repr

/-- The `AccountError` enum used by `accounts.rs`: `NotFound(account)`,
`UnderFunded(account, amount)`, `OverFunded(account, amount)`. -/
inductive AccountError where
  | NotFound (account : AccountId)
  | UnderFunded (account : AccountId) (amount : Nat)
  | OverFunded (account : AccountId) (amount : Nat)
deriving DecidableEq, Repr

/-- The balance table `HashMap<String, u64>`, viewed extensionally as a
partial map from account ids to balances. -/
def Balances := AccountId → Option Nat

/-- `HashMap::insert` (the returned previous value is never used). -/
def Balances.insert (m : Balances) (k : AccountId) (v : Nat) : Balances :=
  fun k2 => if k2 = k then some v else m k2

/-- The `Accounts` struct: it owns the balance table. -/
structure Accounts where
  accounts : Balances

/-- `Accounts::new()`: the empty ledger. -/
def Accounts.new : Accounts := ⟨fun _ => none⟩

/-- `Accounts::deposit`.  The mutation of `&mut self` is modelled by returning
the new state as the second component.  On the existing-entry path the Rust
code uses `checked_add`, which is `Some` exactly when the unbounded sum is at
most `u64::MAX`; on the missing-entry path it inserts `amount` directly. -/
def Accounts.deposit (s : Accounts) (signer : AccountId) (amount : Nat) :
    Except AccountError Tx × Accounts :=
  match s.accounts signer with
  | some account =>
      if account + amount ≤ U64MAX then
        (Except.ok (Tx.Deposit signer amount),
          ⟨s.accounts.insert signer (account + amount)⟩)
      else
        (Except.error (AccountError.OverFunded signer amount), s)
  | none =>
      (Except.ok (Tx.Deposit signer amount),
        ⟨s.accounts.insert signer amount⟩)

/-- `Accounts::withdraw`.  `checked_sub` is `Some` exactly when
`amount ≤ account`; a missing entry fails with `NotFound`. -/
def Accounts.withdraw (s : Accounts) (signer : AccountId) (amount : Nat) :
    Except AccountError Tx × Accounts :=
  match s.accounts signer with
  | some account =>
      if amount ≤ account then
        (Except.ok (Tx.Withdraw signer amount),
          ⟨s.accounts.insert signer (account - amount)⟩)
      else
        (Except.error (AccountError.UnderFunded signer amount), s)
  | none => (Except.error (AccountError.NotFound signer), s)

/-- `Accounts::send`: check that both accounts exist, withdraw from the
sender (re-wrapping any failure as `UnderFunded(sender, amount)`), deposit to
the recipient, and on a failed deposit refund the sender — propagating a
failed refund via `?`, otherwise reporting `OverFunded(recipient, amount)`. -/
def Accounts.send (s : Accounts) (sender recipient : AccountId) (amount : Nat) :
    Except AccountError (Tx × Tx) × Accounts :=
  match s.accounts sender with
  | none => (Except.error (AccountError.NotFound sender), s)
  | some _ =>
    match s.accounts recipient with
    | none => (Except.error (AccountError.NotFound recipient), s)
    | some _ =>
      match s.withdraw sender amount with
      | (Except.error _, s1) =>
          (Except.error (AccountError.UnderFunded sender amount), s1)
      | (Except.ok w, s1) =>
        match s1.deposit recipient amount with
        | (Except.error _, s2) =>
          match s2.deposit sender amount with
          | (Except.error e, s3) => (Except.error e, s3)
          | (Except.ok _, s3) =>
              (Except.error (AccountError.OverFunded recipient amount), s3)
        | (Except.ok d, s2) => (Except.ok (w, d), s2)

/-- A ledger state is well formed when every stored balance fits in a `u64`.
Every state reachable by the Rust code satisfies this, since the table stores
`u64` values. -/
def WF (s : Accounts) : Prop :=
  ∀ a b, s.accounts a = some b → b ≤ U64MAX

/-- One call made against the ledger, for the replay invariant. -/
inductive Op where
  | deposit (account : AccountId) (amount : Nat)
  | withdraw (account : AccountId) (amount : Nat)
  | send (sender recipient : AccountId) (amount : Nat)
deriving DecidableEq, Repr

/-- The `u64` amount argument carried by a call. -/
def Op.amount : Op → Nat
  | .deposit _ amt => amt
  | .withdraw _ amt => amt
  | .send _ _ amt => amt

/-- The call's amount fits in a `u64`, as the Rust signatures force. -/
def Op.AmountOk (op : Op) : Prop := op.amount ≤ U64MAX

instance (op : Op) : Decidable op.AmountOk := by
  unfold Op.AmountOk; infer_instance

/-- Execute one call, returning the new state and the list of transaction
records the call returned on success (`send` returns two, in order). -/
def runOp (s : Accounts) (op : Op) : Accounts × List Tx :=
  match op with
  | .deposit a amt =>
    match s.deposit a amt with
    | (Except.ok t, s2) => (s2, [t])
    | (Except.error _, s2) => (s2, [])
  | .withdraw a amt =>
    match s.withdraw a amt with
    | (Except.ok t, s2) => (s2, [t])
    | (Except.error _, s2) => (s2, [])
  | .send snd rcv amt =>
    match s.send snd rcv amt with
    | (Except.ok (w, d), s2) => (s2, [w, d])
    | (Except.error _, s2) => (s2, [])

/-- Execute a sequence of calls from `s`, concatenating the returned
transaction records in order. -/
def runOps (s : Accounts) : List Op → Accounts × List Tx
  | [] => (s, [])
  | op :: rest =>
    ((runOps (runOp s op).1 rest).1,
      (runOp s op).2 ++ (runOps (runOp s op).1 rest).2)

/-- Apply one transaction record to a ledger: a `Deposit` record is applied
as `deposit`, a `Withdraw` record as `withdraw`. -/
def applyTx (s : Accounts) : Tx → Accounts
  | .Deposit a amt => (s.deposit a amt).2
  | .Withdraw a amt => (s.withdraw a amt).2

/-- Replay a list of transaction records, in order. -/
def replay (txs : List Tx) (s : Accounts) : Accounts :=
  txs.foldl applyTx s

/-! ### Case lemmas for `deposit` and `withdraw` -/

theorem insert_same (m : Balances) (k : AccountId) (v : Nat) :
    m.insert k v k = some v := by
  simp [Balances.insert]

theorem insert_other (m : Balances) (k k2 : AccountId) (v : Nat)
    (h : k2 ≠ k) : m.insert k v k2 = m k2 := by
  simp [Balances.insert, h]

theorem deposit_none (s : Accounts) (a : AccountId) (amt : Nat)
    (h : s.accounts a = none) :
    s.deposit a amt =
      (Except.ok (Tx.Deposit a amt), ⟨s.accounts.insert a amt⟩) := by
  unfold Accounts.deposit
  rw [h]

theorem deposit_some_ok (s : Accounts) (a : AccountId) (amt b : Nat)
    (h : s.accounts a = some b) (hle : b + amt ≤ U64MAX) :
    s.deposit a amt =
      (Except.ok (Tx.Deposit a amt), ⟨s.accounts.insert a (b + amt)⟩) := by
  unfold Accounts.deposit
  rw [h]
  simp [hle]

theorem deposit_some_err (s : Accounts) (a : AccountId) (amt b : Nat)
    (h : s.accounts a = some b) (hgt : U64MAX < b + amt) :
    s.deposit a amt = (Except.error (AccountError.OverFunded a amt), s) := by
  unfold Accounts.deposit
  rw [h]
  simp [Nat.not_le_of_lt hgt]

theorem withdraw_none (s : Accounts) (a : AccountId) (amt : Nat)
    (h : s.accounts a = none) :
    s.withdraw a amt = (Except.error (AccountError.NotFound a), s) := by
  unfold Accounts.withdraw
  rw [h]

theorem withdraw_some_ok (s : Accounts) (a : AccountId) (amt b : Nat)
    (h : s.accounts a = some b) (hle : amt ≤ b) :
    s.withdraw a amt =
      (Except.ok (Tx.Withdraw a amt), ⟨s.accounts.insert a (b - amt)⟩) := by
  unfold Accounts.withdraw
  rw [h]
  simp [hle]

theorem withdraw_some_err (s : Accounts) (a : AccountId) (amt b : Nat)
    (h : s.accounts a = some b) (hgt : b < amt) :
    s.withdraw a amt =
      (Except.error (AccountError.UnderFunded a amt), s) := by
  unfold Accounts.withdraw
  rw [h]
  simp [Nat.not_le_of_lt hgt]

/-! ### Case lemmas for `send` -/

theorem send_no_sender (s : Accounts) (snd rcv : AccountId) (amt : Nat)
    (h : s.accounts snd = none) :
    s.send snd rcv amt = (Except.error (AccountError.NotFound snd), s) := by
  unfold Accounts.send
  rw [h]

theorem send_no_recipient (s : Accounts) (snd rcv : AccountId) (amt bs : Nat)
    (hs : s.accounts snd = some bs) (hr : s.accounts rcv = none) :
    s.send snd rcv amt = (Except.error (AccountError.NotFound rcv), s) := by
  unfold Accounts.send
  rw [hs, hr]

theorem send_underfunded (s : Accounts) (snd rcv : AccountId)
    (amt bs br : Nat) (hs : s.accounts snd = some bs)
    (hr : s.accounts rcv = some br) (hgt : bs < amt) :
    s.send snd rcv amt =
      (Except.error (AccountError.UnderFunded snd amt), s) := by
  unfold Accounts.send
  rw [hs, hr, withdraw_some_err s snd amt bs hs hgt]

theorem send_success (s : Accounts) (snd rcv : AccountId) (amt bs br : Nat)
    (hne : snd ≠ rcv) (hs : s.accounts snd = some bs)
    (hr : s.accounts rcv = some br) (hamt : amt ≤ bs)
    (hov : br + amt ≤ U64MAX) :
    s.send snd rcv amt =
      (Except.ok (Tx.Withdraw snd amt, Tx.Deposit rcv amt),
        ⟨(s.accounts.insert snd (bs - amt)).insert rcv (br + amt)⟩) := by
  unfold Accounts.send
  have h1 : (s.accounts.insert snd (bs - amt)) rcv = some br := by
    rw [insert_other _ _ _ _ (Ne.symm hne), hr]
  simp only [hs, hr, withdraw_some_ok s snd amt bs hs hamt,
    deposit_some_ok ⟨s.accounts.insert snd (bs - amt)⟩ rcv amt br h1 hov]

theorem send_self (s : Accounts) (a : AccountId) (amt b : Nat)
    (hb : s.accounts a = some b) (hamt : amt ≤ b) (hfit : b ≤ U64MAX) :
    s.send a a amt =
      (Except.ok (Tx.Withdraw a amt, Tx.Deposit a amt),
        ⟨(s.accounts.insert a (b - amt)).insert a b⟩) := by
  unfold Accounts.send
  have h1 : (s.accounts.insert a (b - amt)) a = some (b - amt) :=
    insert_same _ _ _
  have h2 : b - amt + amt ≤ U64MAX := by omega
  have h3 : b - amt + amt = b := by omega
  simp only [hb, withdraw_some_ok s a amt b hb hamt,
    deposit_some_ok ⟨s.accounts.insert a (b - amt)⟩ a amt (b - amt) h1 h2, h3]

theorem send_overfunded (s : Accounts) (snd rcv : AccountId)
    (amt bs br : Nat) (hne : snd ≠ rcv) (hs : s.accounts snd = some bs)
    (hr : s.accounts rcv = some br) (hamt : amt ≤ bs)
    (hov : U64MAX < br + amt) (hfit : bs ≤ U64MAX) :
    s.send snd rcv amt =
      (Except.error (AccountError.OverFunded rcv amt),
        ⟨(s.accounts.insert snd (bs - amt)).insert snd bs⟩) := by
  unfold Accounts.send
  have h1 : (s.accounts.insert snd (bs - amt)) rcv = some br := by
    rw [insert_other _ _ _ _ (Ne.symm hne), hr]
  have h2 : (s.accounts.insert snd (bs - amt)) snd = some (bs - amt) :=
    insert_same _ _ _
  have h3 : bs - amt + amt ≤ U64MAX := by omega
  have h4 : bs - amt + amt = bs := by omega
  simp only [hs, hr, withdraw_some_ok s snd amt bs hs hamt,
    deposit_some_err ⟨s.accounts.insert snd (bs - amt)⟩ rcv amt br h1 hov,
    deposit_some_ok ⟨s.accounts.insert snd (bs - amt)⟩ snd amt (bs - amt)
      h2 h3, h4]

/-! ### State preservation on failure -/

theorem deposit_err_state (s : Accounts) (a : AccountId) (amt : Nat)
    (e : AccountError) (h : (s.deposit a amt).1 = Except.error e) :
    (s.deposit a amt).2 = s := by
  cases hb : s.accounts a with
  | none =>
    rw [deposit_none s a amt hb] at h
    exact absurd h (by simp)
  | some b =>
    by_cases hle : b + amt ≤ U64MAX
    · rw [deposit_some_ok s a amt b hb hle] at h
      exact absurd h (by simp)
    · rw [deposit_some_err s a amt b hb (by omega)]

theorem withdraw_err_state (s : Accounts) (a : AccountId) (amt : Nat)
    (e : AccountError) (h : (s.withdraw a amt).1 = Except.error e) :
    (s.withdraw a amt).2 = s := by
  cases hb : s.accounts a with
  | none => rw [withdraw_none s a amt hb]
  | some b =>
    by_cases hle : amt ≤ b
    · rw [withdraw_some_ok s a amt b hb hle] at h
      exact absurd h (by simp)
    · rw [withdraw_some_err s a amt b hb (by omega)]

/-- After a double insert at the same key, restoring the looked-up value
gives back the original table pointwise. -/
theorem insert_restore (m : Balances) (k : AccountId) (v b : Nat)
    (h : m k = some b) :
    ∀ k2, ((m.insert k v).insert k b) k2 = m k2 := by
  intro k2
  by_cases hk : k2 = k
  · rw [hk, insert_same, h]
  · rw [insert_other _ _ _ _ hk, insert_other _ _ _ _ hk]

theorem accounts_ext (s t : Accounts)
    (h : ∀ k, s.accounts k = t.accounts k) : s = t := by
  cases s
  cases t
  congr 1
  funext k
  exact h k

theorem send_err_state (s : Accounts) (snd rcv : AccountId) (amt : Nat)
    (hWF : WF s) (e : AccountError)
    (h : (s.send snd rcv amt).1 = Except.error e) :
    (s.send snd rcv amt).2 = s := by
  cases hs : s.accounts snd with
  | none => rw [send_no_sender s snd rcv amt hs]
  | some bs =>
    cases hr : s.accounts rcv with
    | none => rw [send_no_recipient s snd rcv amt bs hs hr]
    | some br =>
      by_cases hamt : amt ≤ bs
      · by_cases hne : snd = rcv
        · subst hne
          have hbb : bs = br := by
            rw [hs] at hr
            exact Option.some.inj hr
          subst hbb
          rw [send_self s snd amt bs hs hamt (hWF snd bs hs)] at h
          exact absurd h (by simp)
        · by_cases hov : br + amt ≤ U64MAX
          · rw [send_success s snd rcv amt bs br hne hs hr hamt hov] at h
            exact absurd h (by simp)
          · rw [send_overfunded s snd rcv amt bs br hne hs hr hamt
              (by omega) (hWF snd bs hs)]
            exact accounts_ext _ _ (insert_restore s.accounts snd _ bs hs)
      · rw [send_underfunded s snd rcv amt bs br hs hr (by omega)]

/-! ### Preservation of the u64 range -/

theorem WF_new : WF Accounts.new := by
  intro a b hab
  exact absurd hab (by simp [Accounts.new])

theorem WF_insert (s : Accounts) (hWF : WF s) (k : AccountId) (v : Nat)
    (hv : v ≤ U64MAX) : WF ⟨s.accounts.insert k v⟩ := by
  intro a b hab
  have hab2 : s.accounts.insert k v a = some b := hab
  unfold Balances.insert at hab2
  by_cases hak : a = k
  · simp only [hak, if_pos rfl] at hab2
    exact (Option.some.inj hab2) ▸ hv
  · rw [if_neg hak] at hab2
    exact hWF a b hab2

theorem deposit_WF (s : Accounts) (a : AccountId) (amt : Nat)
    (hWF : WF s) (hamt : amt ≤ U64MAX) : WF (s.deposit a amt).2 := by
  cases hb : s.accounts a with
  | none =>
    rw [deposit_none s a amt hb]
    exact WF_insert s hWF a amt hamt
  | some b =>
    by_cases hle : b + amt ≤ U64MAX
    · rw [deposit_some_ok s a amt b hb hle]
      exact WF_insert s hWF a (b + amt) hle
    · rw [deposit_some_err s a amt b hb (by omega)]
      exact hWF

theorem withdraw_WF (s : Accounts) (a : AccountId) (amt : Nat)
    (hWF : WF s) : WF (s.withdraw a amt).2 := by
  cases hb : s.accounts a with
  | none =>
    rw [withdraw_none s a amt hb]
    exact hWF
  | some b =>
    by_cases hle : amt ≤ b
    · rw [withdraw_some_ok s a amt b hb hle]
      exact WF_insert s hWF a (b - amt) (by have := hWF a b hb; omega)
    · rw [withdraw_some_err s a amt b hb (by omega)]
      exact hWF

theorem send_WF (s : Accounts) (snd rcv : AccountId) (amt : Nat)
    (hWF : WF s) : WF (s.send snd rcv amt).2 := by
  cases hs : s.accounts snd with
  | none =>
    rw [send_no_sender s snd rcv amt hs]
    exact hWF
  | some bs =>
    cases hr : s.accounts rcv with
    | none =>
      rw [send_no_recipient s snd rcv amt bs hs hr]
      exact hWF
    | some br =>
      have hbs : bs ≤ U64MAX := hWF snd bs hs
      by_cases hamt : amt ≤ bs
      · by_cases hne : snd = rcv
        · subst hne
          have hbb : bs = br := by
            rw [hs] at hr
            exact Option.some.inj hr
          subst hbb
          rw [send_self s snd amt bs hs hamt hbs]
          exact WF_insert ⟨s.accounts.insert snd (bs - amt)⟩
            (WF_insert s hWF snd (bs - amt) (by omega)) snd bs hbs
        · by_cases hov : br + amt ≤ U64MAX
          · rw [send_success s snd rcv amt bs br hne hs hr hamt hov]
            exact WF_insert ⟨s.accounts.insert snd (bs - amt)⟩
              (WF_insert s hWF snd (bs - amt) (by omega)) rcv (br + amt) hov
          · rw [send_overfunded s snd rcv amt bs br hne hs hr hamt
              (by omega) hbs]
            exact WF_insert ⟨s.accounts.insert snd (bs - amt)⟩
              (WF_insert s hWF snd (bs - amt) (by omega)) snd bs hbs
      · rw [send_underfunded s snd rcv amt bs br hs hr (by omega)]
        exact hWF

/-! ### Frame lemmas: untouched accounts keep their balance -/

theorem deposit_frame (s : Accounts) (a k : AccountId) (amt : Nat)
    (hk : k ≠ a) : (s.deposit a amt).2.accounts k = s.accounts k := by
  cases hb : s.accounts a with
  | none =>
    rw [deposit_none s a amt hb]
    exact insert_other _ _ _ _ hk
  | some b =>
    by_cases hle : b + amt ≤ U64MAX
    · rw [deposit_some_ok s a amt b hb hle]
      exact insert_other _ _ _ _ hk
    · rw [deposit_some_err s a amt b hb (by omega)]

theorem withdraw_frame (s : Accounts) (a k : AccountId) (amt : Nat)
    (hk : k ≠ a) : (s.withdraw a amt).2.accounts k = s.accounts k := by
  cases hb : s.accounts a with
  | none => rw [withdraw_none s a amt hb]
  | some b =>
    by_cases hle : amt ≤ b
    · rw [withdraw_some_ok s a amt b hb hle]
      exact insert_other _ _ _ _ hk
    · rw [withdraw_some_err s a amt b hb (by omega)]

/-- The refund branch when the sender's balance itself exceeds `U64MAX`
(unreachable from `u64` states, but present in the `Nat` model): the refund
deposit overflows as well, and `?` propagates its `OverFunded(sender)` error
with the sender still debited. -/
theorem send_refund_fail (s : Accounts) (snd rcv : AccountId)
    (amt bs br : Nat) (hne : snd ≠ rcv) (hs : s.accounts snd = some bs)
    (hr : s.accounts rcv = some br) (hamt : amt ≤ bs)
    (hov : U64MAX < br + amt) (hbig : U64MAX < bs) :
    s.send snd rcv amt =
      (Except.error (AccountError.OverFunded snd amt),
        ⟨s.accounts.insert snd (bs - amt)⟩) := by
  unfold Accounts.send
  have h1 : (s.accounts.insert snd (bs - amt)) rcv = some br := by
    rw [insert_other _ _ _ _ (fun he => hne he.symm), hr]
  have h2 : (s.accounts.insert snd (bs - amt)) snd = some (bs - amt) :=
    insert_same _ _ _
  simp only [hs, hr, withdraw_some_ok s snd amt bs hs hamt,
    deposit_some_err ⟨s.accounts.insert snd (bs - amt)⟩ rcv amt br h1 hov,
    deposit_some_err ⟨s.accounts.insert snd (bs - amt)⟩ snd amt (bs - amt)
      h2 (by omega)]

theorem send_frame (s : Accounts) (snd rcv k : AccountId) (amt : Nat)
    (hks : k ≠ snd) (hkr : k ≠ rcv) :
    (s.send snd rcv amt).2.accounts k = s.accounts k := by
  cases hs : s.accounts snd with
  | none => rw [send_no_sender s snd rcv amt hs]
  | some bs =>
    cases hr : s.accounts rcv with
    | none => rw [send_no_recipient s snd rcv amt bs hs hr]
    | some br =>
      by_cases hamt : amt ≤ bs
      · by_cases hne : snd = rcv
        · subst hne
          have hbb : bs = br := by
            rw [hs] at hr
            exact Option.some.inj hr
          subst hbb
          by_cases hfit : bs ≤ U64MAX
          · rw [send_self s snd amt bs hs hamt hfit]
            exact insert_restore s.accounts snd (bs - amt) bs hs k
          · have h1 : (s.accounts.insert snd (bs - amt)) snd =
                some (bs - amt) := insert_same _ _ _
            have hrf : U64MAX < bs - amt + amt := by omega
            unfold Accounts.send
            simp only [hs, withdraw_some_ok s snd amt bs hs hamt,
              deposit_some_err ⟨s.accounts.insert snd (bs - amt)⟩ snd amt
                (bs - amt) h1 hrf]
            exact insert_other _ _ _ _ hks
        · by_cases hov : br + amt ≤ U64MAX
          · rw [send_success s snd rcv amt bs br hne hs hr hamt hov]
            exact (insert_other _ _ _ _ hkr).trans
              (insert_other _ _ _ _ hks)
          · by_cases hfit : bs ≤ U64MAX
            · rw [send_overfunded s snd rcv amt bs br hne hs hr hamt
                (by omega) hfit]
              exact (insert_other _ _ _ _ hks).trans
                (insert_other _ _ _ _ hks)
            · rw [send_refund_fail s snd rcv amt bs br hne hs hr hamt
                (by omega) (by omega)]
              exact insert_other _ _ _ _ hks
      · rw [send_underfunded s snd rcv amt bs br hs hr (by omega)]

/-! ### The replay invariant -/

theorem replay_append (ts1 ts2 : List Tx) (s : Accounts) :
    replay (ts1 ++ ts2) s = replay ts2 (replay ts1 s) := by
  simp [replay]

theorem runOp_replay (s : Accounts) (op : Op) (hWF : WF s)
    (hop : op.AmountOk) : replay (runOp s op).2 s = (runOp s op).1 := by
  cases op with
  | deposit a amt =>
    cases hb : s.accounts a with
    | none =>
      simp [runOp, deposit_none s a amt hb, replay, applyTx]
    | some b =>
      by_cases hle : b + amt ≤ U64MAX
      · simp [runOp, deposit_some_ok s a amt b hb hle, replay, applyTx]
      · simp [runOp, deposit_some_err s a amt b hb (by omega), replay]
  | withdraw a amt =>
    cases hb : s.accounts a with
    | none => simp [runOp, withdraw_none s a amt hb, replay]
    | some b =>
      by_cases hle : amt ≤ b
      · simp [runOp, withdraw_some_ok s a amt b hb hle, replay, applyTx]
      · simp [runOp, withdraw_some_err s a amt b hb (by omega), replay]
  | send snd rcv amt =>
    cases hs : s.accounts snd with
    | none => simp [runOp, send_no_sender s snd rcv amt hs, replay]
    | some bs =>
      cases hr : s.accounts rcv with
      | none =>
        simp [runOp, send_no_recipient s snd rcv amt bs hs hr, replay]
      | some br =>
        have hbs : bs ≤ U64MAX := hWF snd bs hs
        by_cases hamt : amt ≤ bs
        · by_cases hne : snd = rcv
          · subst hne
            have hbb : bs = br := by
              rw [hs] at hr
              exact Option.some.inj hr
            subst hbb
            have h1 : (s.accounts.insert snd (bs - amt)) snd =
                some (bs - amt) := insert_same _ _ _
            simp [runOp, send_self s snd amt bs hs hamt hbs, replay,
              applyTx, withdraw_some_ok s snd amt bs hs hamt,
              deposit_some_ok ⟨s.accounts.insert snd (bs - amt)⟩ snd amt
                (bs - amt) h1 (by omega : bs - amt + amt ≤ U64MAX),
              (by omega : bs - amt + amt = bs)]
          · have h1 : (s.accounts.insert snd (bs - amt)) rcv = some br := by
              rw [insert_other _ _ _ _ (fun he => hne he.symm), hr]
            by_cases hov : br + amt ≤ U64MAX
            · simp [runOp, send_success s snd rcv amt bs br hne hs hr hamt
                hov, replay, applyTx, withdraw_some_ok s snd amt bs hs hamt,
                deposit_some_ok ⟨s.accounts.insert snd (bs - amt)⟩ rcv amt
                  br h1 hov]
            · simp only [runOp,
                send_overfunded s snd rcv amt bs br hne hs hr hamt
                  (by omega) hbs, replay, List.foldl]
              exact (accounts_ext _ s
                (insert_restore s.accounts snd _ bs hs)).symm
        · simp [runOp, send_underfunded s snd rcv amt bs br hs hr
            (by omega), replay]

theorem runOp_WF (s : Accounts) (op : Op) (hWF : WF s)
    (hop : op.AmountOk) : WF (runOp s op).1 := by
  cases op with
  | deposit a amt =>
    have h : WF (s.deposit a amt).2 := deposit_WF s a amt hWF hop
    cases hd : s.deposit a amt with
    | mk r s2 =>
      rw [hd] at h
      cases r <;> simpa [runOp, hd] using h
  | withdraw a amt =>
    have h : WF (s.withdraw a amt).2 := withdraw_WF s a amt hWF
    cases hd : s.withdraw a amt with
    | mk r s2 =>
      rw [hd] at h
      cases r <;> simpa [runOp, hd] using h
  | send snd rcv amt =>
    have h : WF (s.send snd rcv amt).2 := send_WF s snd rcv amt hWF
    cases hd : s.send snd rcv amt with
    | mk r s2 =>
      rw [hd] at h
      cases r with
      | error e => simpa [runOp, hd] using h
      | ok p =>
        cases p with
        | mk w d => simpa [runOp, hd] using h

theorem runOps_replay (ops : List Op) :
    ∀ s : Accounts, WF s → (∀ op ∈ ops, op.AmountOk) →
      replay (runOps s ops).2 s = (runOps s ops).1 := by
  induction ops with
  | nil =>
    intro s hWF hops
    simp [runOps, replay]
  | cons op rest ih =>
    intro s hWF hops
    have hop : op.AmountOk := hops op (by simp)
    have hrest : ∀ o ∈ rest, o.AmountOk := fun o ho => hops o (by simp [ho])
    simp only [runOps]
    rw [replay_append, runOp_replay s op hWF hop]
    exact ih (runOp s op).1 (runOp_WF s op hWF hop) hrest

/-! ### Concrete states used to instantiate the theorems -/

/-- A concrete ledger: alice holds `U64MAX`, bob holds 100. -/
def sEx : Accounts :=
  ⟨fun k => if k = "alice" then some U64MAX
    else if k = "bob" then some 100 else none⟩

theorem sEx_WF : WF sEx := by
  intro a b hab
  have h : (if a = "alice" then some U64MAX
      else if a = "bob" then some 100 else none) = some b := hab
  by_cases h1 : a = "alice"
  · rw [if_pos h1] at h
    exact (Option.some.inj h) ▸ le_refl _
  · rw [if_neg h1] at h
    by_cases h2 : a = "bob"
    · rw [if_pos h2] at h
      exact (Option.some.inj h) ▸ (by decide : (100 : Nat) ≤ U64MAX)
    · rw [if_neg h2] at h
      exact absurd h (by simp)

/-- A concrete call sequence exercising all three operations. -/
def opsEx : List Op :=
  [Op.deposit "alice" 100, Op.deposit "bob" 50,
   Op.send "alice" "bob" 30, Op.withdraw "bob" 10]

/-! ### The claims -/

/-- C1: Replay invariant — for every sequence of deposit/withdraw/send calls
starting from an empty ledger, applying the transaction records returned by
the successful calls, in order, to a second fresh empty ledger (each Deposit
record applied as deposit, each Withdraw record applied as withdraw) produces
a balance table equal to the original ledger's balance table after the
sequence.  The amounts are `u64` values, hence at most `U64MAX`. -/
theorem C1_replay_invariant (ops : List Op)
    (h : ∀ op ∈ ops, op.AmountOk) :
    ∀ k, (replay (runOps Accounts.new ops).2 Accounts.new).accounts k
      = (runOps Accounts.new ops).1.accounts k := by
  intro k
  rw [runOps_replay ops Accounts.new WF_new h]

theorem C1_replay_invariant_witness :
    (∀ op ∈ opsEx, op.AmountOk) ∧
    ∀ k, (replay (runOps Accounts.new opsEx).2 Accounts.new).accounts k
      = (runOps Accounts.new opsEx).1.accounts k :=
  ⟨by decide, C1_replay_invariant opsEx (by decide)⟩

/-- C2: No-op on failure / send atomicity — from any reachable (u64-valued)
ledger state, every call to deposit, withdraw, or send that returns an error
(including send failing at the recipient-deposit step, where the sender has
already been debited and is then refunded) leaves the balance of every
account exactly as it was before the call. -/
theorem C2_noop_on_failure (s : Accounts) (hWF : WF s)
    (a snd rcv : AccountId) (amt : Nat) :
    (∀ e s2, s.deposit a amt = (Except.error e, s2) →
      ∀ k, s2.accounts k = s.accounts k) ∧
    (∀ e s2, s.withdraw a amt = (Except.error e, s2) →
      ∀ k, s2.accounts k = s.accounts k) ∧
    (∀ e s2, s.send snd rcv amt = (Except.error e, s2) →
      ∀ k, s2.accounts k = s.accounts k) := by
  refine ⟨?_, ?_, ?_⟩
  · intro e s2 h k
    have h1 : (s.deposit a amt).1 = Except.error e := by rw [h]
    have h2 : s2 = s := by
      have h3 := deposit_err_state s a amt e h1
      rw [h] at h3
      exact h3
    rw [h2]
  · intro e s2 h k
    have h1 : (s.withdraw a amt).1 = Except.error e := by rw [h]
    have h2 : s2 = s := by
      have h3 := withdraw_err_state s a amt e h1
      rw [h] at h3
      exact h3
    rw [h2]
  · intro e s2 h k
    have h1 : (s.send snd rcv amt).1 = Except.error e := by rw [h]
    have h2 : s2 = s := by
      have h3 := send_err_state s snd rcv amt hWF e h1
      rw [h] at h3
      exact h3
    rw [h2]

theorem C2_noop_on_failure_witness :
    WF sEx ∧
    ((∀ e s2, sEx.deposit "bob" U64MAX = (Except.error e, s2) →
      ∀ k, s2.accounts k = sEx.accounts k) ∧
    (∀ e s2, sEx.withdraw "bob" U64MAX = (Except.error e, s2) →
      ∀ k, s2.accounts k = sEx.accounts k) ∧
    (∀ e s2, sEx.send "alice" "bob" U64MAX = (Except.error e, s2) →
      ∀ k, s2.accounts k = sEx.accounts k)) :=
  ⟨sEx_WF, C2_noop_on_failure sEx sEx_WF "bob" "alice" "bob" U64MAX⟩

/-- C3: deposit postcondition — with no existing entry, deposit creates an
entry with value amount and succeeds unconditionally; with an existing entry
of balance b such that b + amount fits in a u64, it stores b + amount; in
both success cases it returns a Deposit record carrying the account and the
requested amount (not the resulting balance). -/
theorem C3_deposit_postcondition (s : Accounts) (a : AccountId)
    (amt b : Nat) :
    (s.accounts a = none →
      (s.deposit a amt).1 = Except.ok (Tx.Deposit a amt) ∧
      (s.deposit a amt).2.accounts a = some amt) ∧
    (s.accounts a = some b → b + amt ≤ U64MAX →
      (s.deposit a amt).1 = Except.ok (Tx.Deposit a amt) ∧
      (s.deposit a amt).2.accounts a = some (b + amt)) := by
  constructor
  · intro h
    rw [deposit_none s a amt h]
    exact ⟨rfl, insert_same _ _ _⟩
  · intro h hle
    rw [deposit_some_ok s a amt b h hle]
    exact ⟨rfl, insert_same _ _ _⟩

theorem C3_deposit_postcondition_witness :
    (sEx.accounts "carol" = none ∧
      (sEx.deposit "carol" 7).1 = Except.ok (Tx.Deposit "carol" 7) ∧
      (sEx.deposit "carol" 7).2.accounts "carol" = some 7) ∧
    (sEx.accounts "bob" = some 100 ∧ 100 + 7 ≤ U64MAX ∧
      (sEx.deposit "bob" 7).1 = Except.ok (Tx.Deposit "bob" 7) ∧
      (sEx.deposit "bob" 7).2.accounts "bob" = some 107) :=
  ⟨⟨by decide, (C3_deposit_postcondition sEx "carol" 7 0).1 (by decide)⟩,
   ⟨by decide, by decide,
     (C3_deposit_postcondition sEx "bob" 7 100).2 (by decide) (by decide)⟩⟩

/-- C4: withdraw postcondition — a missing account fails with NotFound
carrying the account id and performs no mutation; amount > balance fails
with UnderFunded carrying the account id and the attempted amount, leaving
the state unchanged; amount ≤ balance stores b - amount and returns a
Withdraw record with the account and the requested amount. -/
theorem C4_withdraw_postcondition (s : Accounts) (a : AccountId)
    (amt b : Nat) :
    (s.accounts a = none →
      s.withdraw a amt = (Except.error (AccountError.NotFound a), s)) ∧
    (s.accounts a = some b → b < amt →
      s.withdraw a amt =
        (Except.error (AccountError.UnderFunded a amt), s)) ∧
    (s.accounts a = some b → amt ≤ b →
      (s.withdraw a amt).1 = Except.ok (Tx.Withdraw a amt) ∧
      (s.withdraw a amt).2.accounts a = some (b - amt)) := by
  refine ⟨withdraw_none s a amt, ?_, ?_⟩
  · intro h hgt
    exact withdraw_some_err s a amt b h hgt
  · intro h hle
    rw [withdraw_some_ok s a amt b h hle]
    exact ⟨rfl, insert_same _ _ _⟩

theorem C4_withdraw_postcondition_witness :
    (sEx.accounts "dave" = none ∧
      sEx.withdraw "dave" 5 =
        (Except.error (AccountError.NotFound "dave"), sEx)) ∧
    (sEx.accounts "bob" = some 100 ∧ (100 : Nat) < 200 ∧
      sEx.withdraw "bob" 200 =
        (Except.error (AccountError.UnderFunded "bob" 200), sEx)) ∧
    (sEx.accounts "bob" = some 100 ∧ (40 : Nat) ≤ 100 ∧
      (sEx.withdraw "bob" 40).1 = Except.ok (Tx.Withdraw "bob" 40) ∧
      (sEx.withdraw "bob" 40).2.accounts "bob" = some 60) :=
  ⟨⟨by decide, (C4_withdraw_postcondition sEx "dave" 5 0).1 (by decide)⟩,
   ⟨by decide, by decide,
     (C4_withdraw_postcondition sEx "bob" 200 100).2.1 (by decide)
       (by decide)⟩,
   ⟨by decide, by decide,
     (C4_withdraw_postcondition sEx "bob" 40 100).2.2 (by decide)
       (by decide)⟩⟩

/-- C5: send existence checks and their order — a missing sender fails with
NotFound naming the sender (even if the recipient is also missing, since the
sender is checked first); otherwise a missing recipient fails with NotFound
naming the recipient; both failures leave the state untouched, and send
never creates an entry for the recipient. -/
theorem C5_send_existence_checks (s : Accounts) (snd rcv : AccountId)
    (amt bs : Nat) :
    (s.accounts snd = none →
      s.send snd rcv amt = (Except.error (AccountError.NotFound snd), s)) ∧
    (s.accounts snd = some bs → s.accounts rcv = none →
      s.send snd rcv amt = (Except.error (AccountError.NotFound rcv), s)) ∧
    (s.accounts rcv = none →
      (s.send snd rcv amt).2.accounts rcv = none) := by
  refine ⟨send_no_sender s snd rcv amt,
    send_no_recipient s snd rcv amt bs, ?_⟩
  intro hr
  cases hs : s.accounts snd with
  | none =>
    rw [send_no_sender s snd rcv amt hs]
    exact hr
  | some bs2 =>
    rw [send_no_recipient s snd rcv amt bs2 hs hr]
    exact hr

theorem C5_send_existence_checks_witness :
    (sEx.accounts "dave" = none ∧
      sEx.send "dave" "erin" 5 =
        (Except.error (AccountError.NotFound "dave"), sEx)) ∧
    (sEx.accounts "alice" = some U64MAX ∧ sEx.accounts "dave" = none ∧
      sEx.send "alice" "dave" 5 =
        (Except.error (AccountError.NotFound "dave"), sEx)) ∧
    (sEx.accounts "dave" = none ∧
      (sEx.send "alice" "dave" 5).2.accounts "dave" = none) :=
  ⟨⟨by decide,
     (C5_send_existence_checks sEx "dave" "erin" 5 0).1 (by decide)⟩,
   ⟨by decide, by decide,
     (C5_send_existence_checks sEx "alice" "dave" 5 U64MAX).2.1
       (by decide) (by decide)⟩,
   ⟨by decide,
     (C5_send_existence_checks sEx "alice" "dave" 5 U64MAX).2.2
       (by decide)⟩⟩

/-- C6: send success postcondition — when sender and recipient are distinct
existing accounts, amount ≤ sender's balance, and recipient's balance +
amount fits in a u64, send succeeds, decreases the sender's balance by
amount, increases the recipient's balance by amount, and returns the pair
(Withdraw, Deposit) in that order. -/
theorem C6_send_success (s : Accounts) (snd rcv : AccountId)
    (amt bs br : Nat) (hne : snd ≠ rcv) (hs : s.accounts snd = some bs)
    (hr : s.accounts rcv = some br) (hamt : amt ≤ bs)
    (hov : br + amt ≤ U64MAX) :
    (s.send snd rcv amt).1 =
      Except.ok (Tx.Withdraw snd amt, Tx.Deposit rcv amt) ∧
    (s.send snd rcv amt).2.accounts snd = some (bs - amt) ∧
    (s.send snd rcv amt).2.accounts rcv = some (br + amt) := by
  rw [send_success s snd rcv amt bs br hne hs hr hamt hov]
  exact ⟨rfl, (insert_other _ _ _ _ hne).trans (insert_same _ _ _),
    insert_same _ _ _⟩

theorem C6_send_success_witness :
    ("alice" ≠ "bob") ∧ sEx.accounts "alice" = some U64MAX ∧
    sEx.accounts "bob" = some 100 ∧ (50 : Nat) ≤ U64MAX ∧
    100 + 50 ≤ U64MAX ∧
    ((sEx.send "alice" "bob" 50).1 =
      Except.ok (Tx.Withdraw "alice" 50, Tx.Deposit "bob" 50) ∧
    (sEx.send "alice" "bob" 50).2.accounts "alice" = some (U64MAX - 50) ∧
    (sEx.send "alice" "bob" 50).2.accounts "bob" = some 150) :=
  ⟨by decide, by decide, by decide, by decide, by decide,
   C6_send_success sEx "alice" "bob" 50 U64MAX 100 (by decide) (by decide)
     (by decide) (by decide) (by decide)⟩

/-- C7: Frame property — deposit and withdraw leave every account other
than the touched one unchanged, and send leaves every account other than
sender and recipient unchanged, on both success and failure paths. -/
theorem C7_frame (s : Accounts) (a snd rcv k : AccountId) (amt : Nat) :
    (k ≠ a → (s.deposit a amt).2.accounts k = s.accounts k) ∧
    (k ≠ a → (s.withdraw a amt).2.accounts k = s.accounts k) ∧
    (k ≠ snd → k ≠ rcv →
      (s.send snd rcv amt).2.accounts k = s.accounts k) :=
  ⟨deposit_frame s a k amt, withdraw_frame s a k amt,
    send_frame s snd rcv k amt⟩

theorem C7_frame_witness :
    ("carol" ≠ "alice") ∧ ("carol" ≠ "bob") ∧
    (sEx.deposit "alice" 9).2.accounts "carol" = sEx.accounts "carol" ∧
    (sEx.withdraw "alice" 9).2.accounts "carol" = sEx.accounts "carol" ∧
    (sEx.send "alice" "bob" 9).2.accounts "carol" = sEx.accounts "carol" :=
  ⟨by decide, by decide,
   (C7_frame sEx "alice" "alice" "bob" "carol" 9).1 (by decide),
   (C7_frame sEx "alice" "alice" "bob" "carol" 9).2.1 (by decide),
   (C7_frame sEx "alice" "alice" "bob" "carol" 9).2.2 (by decide)
     (by decide)⟩

/-- C8: Checked arithmetic, no silent wraparound — a deposit on an existing
account with balance b succeeds if and only if b + amount ≤ u64::MAX,
computed over the unbounded integers, and a withdraw on an existing account
succeeds if and only if amount ≤ b; the stored balances are the exact
unbounded sums and differences, never values reduced modulo 2^64. -/
theorem C8_checked_arithmetic (s : Accounts) (a : AccountId) (amt b : Nat)
    (hb : s.accounts a = some b) :
    ((∃ t, (s.deposit a amt).1 = Except.ok t) ↔ b + amt ≤ U64MAX) ∧
    ((∃ t, (s.withdraw a amt).1 = Except.ok t) ↔ amt ≤ b) ∧
    (b + amt ≤ U64MAX → (s.deposit a amt).2.accounts a = some (b + amt)) ∧
    (amt ≤ b → (s.withdraw a amt).2.accounts a = some (b - amt)) := by
  refine ⟨⟨?_, ?_⟩, ⟨?_, ?_⟩, ?_, ?_⟩
  · intro ht
    by_contra hgt
    rw [deposit_some_err s a amt b hb (by omega)] at ht
    exact absurd ht.choose_spec (by simp)
  · intro hle
    rw [deposit_some_ok s a amt b hb hle]
    exact ⟨Tx.Deposit a amt, rfl⟩
  · intro ht
    by_contra hgt
    rw [withdraw_some_err s a amt b hb (by omega)] at ht
    exact absurd ht.choose_spec (by simp)
  · intro hle
    rw [withdraw_some_ok s a amt b hb hle]
    exact ⟨Tx.Withdraw a amt, rfl⟩
  · intro hle
    rw [deposit_some_ok s a amt b hb hle]
    exact insert_same _ _ _
  · intro hle
    rw [withdraw_some_ok s a amt b hb hle]
    exact insert_same _ _ _

theorem C8_checked_arithmetic_witness :
    sEx.accounts "bob" = some 100 ∧
    (((∃ t, (sEx.deposit "bob" 1).1 = Except.ok t) ↔ 100 + 1 ≤ U64MAX) ∧
    ((∃ t, (sEx.withdraw "bob" 1).1 = Except.ok t) ↔ (1 : Nat) ≤ 100) ∧
    (100 + 1 ≤ U64MAX →
      (sEx.deposit "bob" 1).2.accounts "bob" = some (100 + 1)) ∧
    ((1 : Nat) ≤ 100 →
      (sEx.withdraw "bob" 1).2.accounts "bob" = some (100 - 1))) :=
  ⟨by decide, C8_checked_arithmetic sEx "bob" 1 100 (by decide)⟩

/-- C9: the compensating refund in send can never fail — whenever send
reaches the rollback step (the withdraw from the sender succeeded and the
deposit to the recipient failed), the refund deposit always succeeds, since
the sender's post-withdraw balance plus amount equals the sender's original
u64 balance; send on this path returns the OverFunded error naming the
recipient, with the state exactly restored. -/
theorem C9_refund_never_fails (s : Accounts) (snd rcv : AccountId)
    (amt bs : Nat) (hWF : WF s) (hs : s.accounts snd = some bs)
    (hamt : amt ≤ bs) (e : AccountError)
    (hfail : ((s.withdraw snd amt).2.deposit rcv amt).1 = Except.error e) :
    s.send snd rcv amt =
      (Except.error (AccountError.OverFunded rcv amt), s) := by
  have hbs : bs ≤ U64MAX := hWF snd bs hs
  rw [withdraw_some_ok s snd amt bs hs hamt] at hfail
  cases hrcv : s.accounts rcv with
  | none =>
    have hne : rcv ≠ snd := by
      intro he
      rw [he, hs] at hrcv
      exact absurd hrcv (by simp)
    have h1 : (s.accounts.insert snd (bs - amt)) rcv = none := by
      rw [insert_other _ _ _ _ hne, hrcv]
    rw [deposit_none ⟨s.accounts.insert snd (bs - amt)⟩ rcv amt h1]
      at hfail
    exact absurd hfail (by simp)
  | some br =>
    by_cases hne : rcv = snd
    · subst hne
      have hbb : bs = br := by
        rw [hs] at hrcv
        exact Option.some.inj hrcv
      subst hbb
      have h1 : (s.accounts.insert rcv (bs - amt)) rcv = some (bs - amt) :=
        insert_same _ _ _
      rw [deposit_some_ok ⟨s.accounts.insert rcv (bs - amt)⟩ rcv amt
        (bs - amt) h1 (by omega)] at hfail
      exact absurd hfail (by simp)
    · have h1 : (s.accounts.insert snd (bs - amt)) rcv = some br := by
        rw [insert_other _ _ _ _ hne, hrcv]
      by_cases hov : br + amt ≤ U64MAX
      · rw [deposit_some_ok ⟨s.accounts.insert snd (bs - amt)⟩ rcv amt br
          h1 hov] at hfail
        exact absurd hfail (by simp)
      · rw [send_overfunded s snd rcv amt bs br (fun he => hne he.symm)
          hs hrcv hamt (by omega) hbs]
        exact congrArg
          (fun st => (Except.error (AccountError.OverFunded rcv amt), st))
          (accounts_ext _ s (insert_restore s.accounts snd (bs - amt) bs hs))

theorem C9_refund_never_fails_witness :
    WF sEx ∧ sEx.accounts "bob" = some 100 ∧ (50 : Nat) ≤ 100 ∧
    ((sEx.withdraw "bob" 50).2.deposit "alice" 50).1 =
      Except.error (AccountError.OverFunded "alice" 50) ∧
    sEx.send "bob" "alice" 50 =
      (Except.error (AccountError.OverFunded "alice" 50), sEx) :=
  ⟨sEx_WF, by decide, by decide, by rfl,
   C9_refund_never_fails sEx "bob" "alice" 50 100 sEx_WF (by decide)
     (by decide) (AccountError.OverFunded "alice" 50) (by rfl)⟩

/-- C10: self-send is a balance-preserving success — when account a exists
with balance b (a u64 value) and amount ≤ b, send(a, a, amount) succeeds,
returns (Withdraw, Deposit), and leaves a's balance equal to b and every
other account unchanged. -/
theorem C10_self_send (s : Accounts) (a : AccountId) (b amt : Nat)
    (hWF : WF s) (hb : s.accounts a = some b) (hamt : amt ≤ b) :
    (s.send a a amt).1 =
      Except.ok (Tx.Withdraw a amt, Tx.Deposit a amt) ∧
    (s.send a a amt).2.accounts a = some b ∧
    (∀ k, k ≠ a → (s.send a a amt).2.accounts k = s.accounts k) := by
  rw [send_self s a amt b hb hamt (hWF a b hb)]
  refine ⟨rfl, insert_same _ _ _, ?_⟩
  intro k hk
  exact (insert_other _ _ _ _ hk).trans (insert_other _ _ _ _ hk)

theorem C10_self_send_witness :
    WF sEx ∧ sEx.accounts "bob" = some 100 ∧ (30 : Nat) ≤ 100 ∧
    ((sEx.send "bob" "bob" 30).1 =
      Except.ok (Tx.Withdraw "bob" 30, Tx.Deposit "bob" 30) ∧
    (sEx.send "bob" "bob" 30).2.accounts "bob" = some 100 ∧
    (∀ k, k ≠ "bob" →
      (sEx.send "bob" "bob" 30).2.accounts k = sEx.accounts k)) :=
  ⟨sEx_WF, by decide, by decide,
   C10_self_send sEx "bob" 100 30 sEx_WF (by decide) (by decide)⟩

end Ledger
